import Mathlib

set_option maxRecDepth 1000000

/-!
# Verification of the authentication core (user lockout, password policy, TOTP 2FA)

Shallow embedding of the repository's authentication state machine and
second-factor verification engine:

* user store with registration / authentication / lockout / password change
  (`RegisterUser`, `AuthenticateUser`, `ChangePassword`);
* password policy validation (`ValidatePassword` with `DefaultPasswordRules`);
* the simplified SHA-256-based TOTP code derivation and verification
  (`generateTOTPCode`, `verifyTOTPCode`);
* backup-code consumption and the 2FA enable flow
  (`consumeBackup`, `verifySecondFactor`, `enable2FA`).

Modelling conventions:

* The external bcrypt credential hasher is modelled as explicit function
  parameters `hash : String → String` and `verify : String → String → Bool`
  (the spec treats it as an opaque external collaborator).
* Wall-clock instants are Unix seconds.  For the single-factor manager the
  current instant is a `Nat` parameter (the Go zero `time.Time` sentinel is
  modelled as `0`, and `time.Now()` never equals it); for the TOTP engine the
  instant is an `Int` of Unix seconds, and Go's 64-bit integer division
  (truncation toward zero) is `Int.tdiv`.
* Secrets and digests are byte lists (`List Nat`, each element `< 256`);
  SHA-256 is implemented bit-compatibly over such byte lists.
* Randomness (secret / backup-code generation) is supplied by explicit
  generator parameters.
-/

/-! ## Byte-level model of `strings.TrimSpace` -/

/-- Go's `strings.TrimSpace`: drop leading and trailing whitespace. -/
def trimSpace (s : String) : String :=
  String.mk (((s.data.dropWhile Char.isWhitespace).reverse.dropWhile
    Char.isWhitespace).reverse)

/-! ## Password policy (`PasswordRules`, `ValidatePassword`) -/

/-- Rules governing password generation and validation. -/
structure PasswordRules where
  Length : Nat
  RequireUppercase : Bool
  RequireLowercase : Bool
  RequireDigits : Bool
  RequireSpecial : Bool
  MinUppercase : Nat
  MinLowercase : Nat
  MinDigits : Nat
  MinSpecial : Nat
deriving DecidableEq

/-- `DefaultPasswordRules`: the standard secure rules. -/
def DefaultPasswordRules : PasswordRules :=
  { Length := 12
    RequireUppercase := true
    RequireLowercase := true
    RequireDigits := true
    RequireSpecial := true
    MinUppercase := 2
    MinLowercase := 2
    MinDigits := 2
    MinSpecial := 2 }

def uppercaseLetters : String := "ABCDEFGHIJKLMNOPQRSTUVWXYZ"

def lowercaseLetters : String := "abcdefghijklmnopqrstuvwxyz"

def digitChars : String := "0123456789"

def specialChars : String := "!@#$%^&*()_+-=[]\x7b\x7d|;:,.<>?"

/-- Go's `strings.ContainsRune`. -/
def containsRune (s : String) (c : Char) : Bool := s.data.contains c

/-- One step of the character-class counting loop of `ValidatePassword`: the
character is counted in the first class (uppercase, lowercase, digit,
special) that contains it. -/
def classifyStep (k : Nat × Nat × Nat × Nat) (c : Char) : Nat × Nat × Nat × Nat :=
  if containsRune uppercaseLetters c then (k.1 + 1, k.2.1, k.2.2.1, k.2.2.2)
  else if containsRune lowercaseLetters c then (k.1, k.2.1 + 1, k.2.2.1, k.2.2.2)
  else if containsRune digitChars c then (k.1, k.2.1, k.2.2.1 + 1, k.2.2.2)
  else if containsRune specialChars c then (k.1, k.2.1, k.2.2.1, k.2.2.2 + 1)
  else k

/-- The character-class counting loop of `ValidatePassword`. -/
def classifyCounts (password : String) : Nat × Nat × Nat × Nat :=
  password.data.foldl classifyStep (0, 0, 0, 0)

def lengthViolation (n : Nat) : String :=
  "пароль должен содержать минимум " ++ toString n ++ " символов"

def uppercaseViolation (n : Nat) : String :=
  "пароль должен содержать минимум " ++ toString n ++ " заглавных букв"

def lowercaseViolation (n : Nat) : String :=
  "пароль должен содержать минимум " ++ toString n ++ " строчных букв"

def digitsViolation (n : Nat) : String :=
  "пароль должен содержать минимум " ++ toString n ++ " цифр"

def specialViolation (n : Nat) : String :=
  "пароль должен содержать минимум " ++ toString n ++ " специальных символов"

/-- `ValidatePassword`: collects every violated requirement (length first, then
uppercase, lowercase, digits, special) and succeeds exactly when the collected
list is empty.  Password length is the UTF-8 byte length, as in Go's `len`. -/
def ValidatePassword (password : String) (rules : PasswordRules) :
    Bool × List String :=
  let lenErrs :=
    if password.utf8ByteSize < rules.Length then [lengthViolation rules.Length]
    else []
  let k := classifyCounts password
  let errs := lenErrs
    ++ (if rules.RequireUppercase ∧ k.1 < rules.MinUppercase then
          [uppercaseViolation rules.MinUppercase] else [])
    ++ (if rules.RequireLowercase ∧ k.2.1 < rules.MinLowercase then
          [lowercaseViolation rules.MinLowercase] else [])
    ++ (if rules.RequireDigits ∧ k.2.2.1 < rules.MinDigits then
          [digitsViolation rules.MinDigits] else [])
    ++ (if rules.RequireSpecial ∧ k.2.2.2 < rules.MinSpecial then
          [specialViolation rules.MinSpecial] else [])
  (errs.isEmpty, errs)

/-- `IsPasswordSecure`: validation against the default rules. -/
def IsPasswordSecure (password : String) : Bool × List String :=
  ValidatePassword password DefaultPasswordRules

/-! ## User record and store (single-factor variant) -/

/-- The single-factor `User` record.  Times are Unix seconds; `0` models the
zero `time.Time` sentinel. -/
structure User where
  username : String
  hashedPassword : String
  failedAttempts : Nat
  isBlocked : Bool
  createdAt : Nat
  lastLoginAt : Nat
  blockedAt : Nat
deriving DecidableEq

/-- The in-memory user store, a map keyed by username. -/
def Store : Type := String → Option User

/-- `UserStore.GetUser`. -/
def GetUser (s : Store) (username : String) : Option User := s username

/-- `UserStore.SaveUser`: upsert keyed by the record's own username. -/
def SaveUser (s : Store) (u : User) : Store :=
  fun n => if n = u.username then some u else s n

/-- `NewUserStore`: the empty store. -/
def emptyStore : Store := fun _ => none

/-- The `UserManager` lockout threshold, fixed to 3 by `NewUserManager`. -/
def maxAttempts : Nat := 3

/-- `AuthResult`: the closed enumeration of authentication outcomes. -/
inductive AuthResult where
  | success
  | invalidCredentials
  | userBlocked
  | userNotFound
deriving DecidableEq

inductive RegisterError where
  | emptyUsername
  | duplicateUser
  | weakPassword
deriving DecidableEq

/-- `UserManager.RegisterUser`: trims the username, rejects empty or duplicate
usernames and policy-violating passwords, then stores a fresh unblocked user
with counters zeroed.  `hash` is the external bcrypt hasher, `now` the current
instant. -/
def RegisterUser (hash : String → String) (now : Nat) (s : Store)
    (username password : String) : Except RegisterError Store :=
  let uname := trimSpace username
  if uname = "" then .error .emptyUsername
  else if (GetUser s uname).isSome then .error .duplicateUser
  else if (IsPasswordSecure password).1 = false then .error .weakPassword
  else .ok (SaveUser s
    { username := uname
      hashedPassword := hash password
      failedAttempts := 0
      isBlocked := false
      createdAt := now
      lastLoginAt := 0
      blockedAt := 0 })

/-- `UserManager.AuthenticateUser`: blocked check before password comparison;
on success the failure counter resets and `lastLoginAt` is stamped; on mismatch
the counter is incremented and, upon reaching `maxAttempts`, the account is
blocked with `blockedAt` stamped.  `verify` is the external bcrypt check. -/
def AuthenticateUser (verify : String → String → Bool) (now : Nat) (s : Store)
    (username password : String) : AuthResult × Store :=
  let uname := trimSpace username
  match GetUser s uname with
  | none => (.userNotFound, s)
  | some user =>
    if user.isBlocked then (.userBlocked, s)
    else if verify password user.hashedPassword then
      (.success, SaveUser s { user with failedAttempts := 0, lastLoginAt := now })
    else
      let user1 := { user with failedAttempts := user.failedAttempts + 1 }
      let user2 :=
        if user1.failedAttempts ≥ maxAttempts then
          { user1 with isBlocked := true, blockedAt := now }
        else user1
      let s' := SaveUser s user2
      if user2.isBlocked then (.userBlocked, s') else (.invalidCredentials, s')

inductive ChangeError where
  | userNotFound
  | weakPassword
deriving DecidableEq

/-- `UserManager.ChangePassword`: validates and hashes the new password, then
unconditionally resets the failure counter and clears the block flag and
timestamp.  This is the only unblock path. -/
def ChangePassword (hash : String → String) (s : Store)
    (username newPassword : String) : Except ChangeError Store :=
  let uname := trimSpace username
  match GetUser s uname with
  | none => .error .userNotFound
  | some user =>
    if (IsPasswordSecure newPassword).1 = false then .error .weakPassword
    else .ok (SaveUser s
      { user with
        hashedPassword := hash newPassword
        failedAttempts := 0
        isBlocked := false
        blockedAt := 0 })

/-- Run a sequence of authentication attempts (each a pair of the current
instant and the submitted password) against one username, collecting the
result classifications and the final store. -/
def runAuths (verify : String → String → Bool) (s : Store) (username : String) :
    List (Nat × String) → List AuthResult × Store
  | [] => ([], s)
  | (now, pw) :: rest =>
    let r := AuthenticateUser verify now s username pw
    let rs := runAuths verify r.2 username rest
    (r.1 :: rs.1, rs.2)

/-! ## SHA-256 over byte lists (the `crypto/sha256` digest used by the TOTP
engine), FIPS 180-4, words as `Nat` reduced modulo `2 ^ 32`. -/

def shaK : List Nat :=
  [1116352408, 1899447441, 3049323471, 3921009573, 961987163,
   1508970993, 2453635748, 2870763221, 3624381080, 310598401,
   607225278, 1426881987, 1925078388, 2162078206, 2614888103,
   3248222580, 3835390401, 4022224774, 264347078, 604807628,
   770255983, 1249150122, 1555081692, 1996064986, 2554220882,
   2821834349, 2952996808, 3210313671, 3336571891, 3584528711,
   113926993, 338241895, 666307205, 773529912, 1294757372,
   1396182291, 1695183700, 1986661051, 2177026350, 2456956037,
   2730485921, 2820302411, 3259730800, 3345764771, 3516065817,
   3600352804, 4094571909, 275423344, 430227734, 506948616,
   659060556, 883997877, 958139571, 1322822218, 1537002063,
   1747873779, 1955562222, 2024104815, 2227730452, 2361852424,
   2428436474, 2756734187, 3204031479, 3329325298]

def shaH0 : List Nat :=
  [1779033703, 3144134277, 1013904242, 2773480762,
   1359893119, 2600822924, 528734635, 1541459225]

/-- Rotate a 32-bit word right by `n` bit positions. -/
def rotr32 (n x : Nat) : Nat := ((x >>> n) ||| (x <<< (32 - n))) % 4294967296

def shaCh (x y z : Nat) : Nat := (x &&& y) ^^^ ((x ^^^ 4294967295) &&& z)

def shaMaj (x y z : Nat) : Nat := (x &&& y) ^^^ (x &&& z) ^^^ (y &&& z)

def bigSigma0 (x : Nat) : Nat := rotr32 2 x ^^^ rotr32 13 x ^^^ rotr32 22 x

def bigSigma1 (x : Nat) : Nat := rotr32 6 x ^^^ rotr32 11 x ^^^ rotr32 25 x

def smallSigma0 (x : Nat) : Nat := rotr32 7 x ^^^ rotr32 18 x ^^^ (x >>> 3)

def smallSigma1 (x : Nat) : Nat := rotr32 17 x ^^^ rotr32 19 x ^^^ (x >>> 10)

/-- The 8-byte big-endian encoding of the message bit length. -/
def lengthBytes (n : Nat) : List Nat :=
  [n / 72057594037927936 % 256, n / 281474976710656 % 256,
   n / 1099511627776 % 256, n / 4294967296 % 256,
   n / 16777216 % 256, n / 65536 % 256, n / 256 % 256, n % 256]

/-- SHA-256 padding: `0x80`, zero bytes to 56 mod 64, then the bit length. -/
def padMessage (msg : List Nat) : List Nat :=
  let len := msg.length
  let zeros := (119 - len % 64) % 64
  msg ++ [128] ++ List.replicate zeros 0 ++ lengthBytes (len * 8)

/-- Big-endian grouping of bytes into 32-bit words. -/
def bytesToWords : List Nat → List Nat
  | a :: b :: c :: d :: rest => (((a * 256 + b) * 256 + c) * 256 + d) :: bytesToWords rest
  | _ => []

/-- Big-endian serialization of 32-bit words into bytes. -/
def wordsToBytes : List Nat → List Nat
  | [] => []
  | w :: rest =>
    w / 16777216 % 256 :: w / 65536 % 256 :: w / 256 % 256 :: w % 256 :: wordsToBytes rest

/-- Message-schedule expansion of a 16-word block to 64 words. -/
def schedule (block : List Nat) : List Nat :=
  (List.range 48).foldl
    (fun w _ =>
      let n := w.length
      w ++ [(smallSigma1 (w.getD (n - 2) 0) + w.getD (n - 7) 0 +
             smallSigma0 (w.getD (n - 15) 0) + w.getD (n - 16) 0) % 4294967296])
    block

/-- One SHA-256 compression round. -/
def shaRound (w : List Nat)
    (st : Nat × Nat × Nat × Nat × Nat × Nat × Nat × Nat) (i : Nat) :
    Nat × Nat × Nat × Nat × Nat × Nat × Nat × Nat :=
  match st with
  | (a, b, c, d, e, f, g, h) =>
    let t1 := (h + bigSigma1 e + shaCh e f g + shaK.getD i 0 + w.getD i 0) % 4294967296
    let t2 := (bigSigma0 a + shaMaj a b c) % 4294967296
    ((t1 + t2) % 4294967296, a, b, c, (d + t1) % 4294967296, e, f, g)

/-- SHA-256 compression of one 16-word block into the running digest. -/
def compress (hv : List Nat) (block : List Nat) : List Nat :=
  let w := schedule block
  let st := (List.range 64).foldl (shaRound w)
    (hv.getD 0 0, hv.getD 1 0, hv.getD 2 0, hv.getD 3 0,
     hv.getD 4 0, hv.getD 5 0, hv.getD 6 0, hv.getD 7 0)
  match st with
  | (a, b, c, d, e, f, g, h) =>
    [(hv.getD 0 0 + a) % 4294967296, (hv.getD 1 0 + b) % 4294967296,
     (hv.getD 2 0 + c) % 4294967296, (hv.getD 3 0 + d) % 4294967296,
     (hv.getD 4 0 + e) % 4294967296, (hv.getD 5 0 + f) % 4294967296,
     (hv.getD 6 0 + g) % 4294967296, (hv.getD 7 0 + h) % 4294967296]

/-- Fold the compression function over successive 16-word blocks.  The `fuel`
argument only drives structural recursion; any value at least the number of
blocks (for instance the word-list length) is enough. -/
def processBlocks : Nat → List Nat → List Nat → List Nat
  | _, hv, [] => hv
  | 0, hv, _ => hv
  | fuel + 1, hv, w :: rest =>
    processBlocks fuel (compress hv ((w :: rest).take 16)) ((w :: rest).drop 16)

/-- SHA-256 of a byte list, as a 32-byte digest. -/
def sha256 (msg : List Nat) : List Nat :=
  let ws := bytesToWords (padMessage msg)
  wordsToBytes (processBlocks ws.length shaH0 ws)

/-! ## TOTP engine -/

/-- The byte list of Go's `fmt.Sprintf("%d", i)` for a 64-bit integer. -/
def decimalBytes (i : Int) : List Nat := (toString i).data.map Char.toNat

/-- Go's `fmt.Sprintf("%06d", n)`: decimal, left-padded with zeros to at least
six characters. -/
def pad6 (n : Nat) : String :=
  let s := toString n
  String.mk (List.replicate (6 - s.length) '0') ++ s

/-- `generateTOTPCode`: the simplified demo TOTP.  The counter is the Unix
time divided by 30 (Go 64-bit division truncates toward zero); the digest is
SHA-256 of the secret bytes followed by the decimal string of the counter; the
first four digest bytes are accumulated big-endian by shift-or and reduced
modulo 1,000,000; the result is printed as a zero-padded 6-digit string. -/
def generateTOTPCode (secret : List Nat) (timestamp : Int) : String :=
  let timeCounter := Int.tdiv timestamp 30
  let hash := sha256 (secret ++ decimalBytes timeCounter)
  let code := (hash.take 4).foldl (fun c b => (c <<< 8) ||| b) 0
  pad6 (code % 1000000)

/-- `verifyTOTPCode`: accept the submission when it matches the code of the
current instant or of the instants 30 seconds either side. -/
def verifyTOTPCode (secret : List Nat) (now : Int) (inputCode : String) : Bool :=
  ([-1, 0, 1] : List Int).any
    (fun offset => inputCode == generateTOTPCode secret (now + offset * 30))

/-! ## 2FA user, backup codes, second factor, enable flow -/

/-- The 2FA `User2FA` record.  The TOTP secret is kept as its byte list
(empty ⇔ no secret). -/
structure User2FA where
  username : String
  passwordHash : String
  totpSecret : List Nat
  backupCodes : List String
  is2FAEnabled : Bool
  createdAt : Nat
  lastLogin : Nat
deriving DecidableEq

/-- `NewTwoFactorAuth` configures 10 backup codes. -/
def backupCodesCount : Nat := 10

/-- `generateBackupCodesList`: one generated code per index; the random
generator is passed explicitly. -/
def generateBackupCodesList (gen : Nat → String) (count : Nat) : List String :=
  (List.range count).map gen

/-- The backup-code loop of `verifySecondFactor`: linear scan; on the first
exact match remove that single element (splicing the list around it) and
report found; otherwise leave the list as it was. -/
def consumeBackup : List String → String → Bool × List String
  | [], _ => (false, [])
  | c :: cs, sub =>
    if sub = c then (true, cs)
    else
      let r := consumeBackup cs sub
      (r.1, c :: r.2)

/-- `verifySecondFactor`: a 6-byte submission matching the TOTP window is
accepted without touching the backup codes; otherwise the submission is
checked against the backup codes, consuming the first match. -/
def verifySecondFactor (now : Int) (user : User2FA) (code : String) :
    Bool × User2FA :=
  if code.utf8ByteSize = 6 ∧ verifyTOTPCode user.totpSecret now code then
    (true, user)
  else
    let r := consumeBackup user.backupCodes code
    if r.1 then (true, { user with backupCodes := r.2 }) else (false, user)

/-- `enable2FA` (core decision, after the caller has authenticated): assign
the speculative secret and backup codes, then require a confirmation code
matching the TOTP window for the new secret; on mismatch discard both and
leave 2FA off, on match commit and switch 2FA on.  The freshly generated
secret and code list are passed explicitly. -/
def enable2FA (now : Int) (user : User2FA) (secret : List Nat)
    (codes : List String) (confirmation : String) : User2FA :=
  if user.is2FAEnabled then user
  else
    let user1 := { user with totpSecret := secret, backupCodes := codes }
    if verifyTOTPCode secret now confirmation then
      { user1 with is2FAEnabled := true }
    else
      { user1 with totpSecret := [], backupCodes := [] }

/-! ## Reference definitions written from the spec's words (for refinement
claims; these are compared against the source-derived functions above). -/

/-- Reference code derivation following the spec text literally: counter =
floor of Unix seconds over 30; SHA-256 of secret bytes followed by the decimal
string of the counter; first 4 digest bytes as a big-endian unsigned 32-bit
integer; reduce modulo 1,000,000; zero-pad to 6 digits. -/
def deriveCodeFloor (secret : List Nat) (t : Int) : String :=
  let counter := Int.fdiv t 30
  let digest := sha256 (secret ++ decimalBytes counter)
  let word := digest.getD 0 0 * 16777216 + digest.getD 1 0 * 65536 +
    digest.getD 2 0 * 256 + digest.getD 3 0
  pad6 (word % 1000000)

/-- The same reference derivation with the counter division truncated toward
zero (Go's 64-bit division), as the amended claim states it. -/
def deriveCodeTrunc (secret : List Nat) (t : Int) : String :=
  let counter := Int.tdiv t 30
  let digest := sha256 (secret ++ decimalBytes counter)
  let word := digest.getD 0 0 * 16777216 + digest.getD 1 0 * 65536 +
    digest.getD 2 0 * 256 + digest.getD 3 0
  pad6 (word % 1000000)

/-- Spec-level independent count of password characters lying in a class. -/
def countClass (password charset : String) : Nat :=
  password.data.countP (fun c => containsRune charset c)

/-! ## Supporting lemmas about the digest plumbing -/

theorem shiftLeft8_lor_eq (a b : Nat) (hb : b < 256) :
    (a <<< 8) ||| b = a * 256 + b := by
  have h8 : a <<< 8 = 2 ^ 8 * a := by rw [Nat.shiftLeft_eq]; ring
  have hb' : b < 2 ^ 8 := hb
  apply Nat.eq_of_testBit_eq
  intro i
  rw [Nat.testBit_lor, h8, Nat.testBit_mul_pow_two,
    show a * 256 = 2 ^ 8 * a by ring, Nat.testBit_mul_pow_two_add a hb' i]
  by_cases h : i < 8
  · simp [h, Nat.not_le.mpr h]
  · have hge : 8 ≤ i := Nat.not_lt.mp h
    have hbf : b.testBit i = false := by
      apply Nat.testBit_lt_two_pow
      calc b < 2 ^ 8 := hb'
        _ ≤ 2 ^ i := Nat.pow_le_pow_right (by norm_num) hge
    simp [h, hge, hbf]

theorem wordsToBytes_lt (ws : List Nat) : ∀ b ∈ wordsToBytes ws, b < 256 := by
  induction ws with
  | nil => simp [wordsToBytes]
  | cons w rest ih =>
    intro b hb
    simp only [wordsToBytes, List.mem_cons] at hb
    rcases hb with h | h | h | h | h
    · omega
    · omega
    · omega
    · omega
    · exact ih b h

theorem wordsToBytes_length (ws : List Nat) :
    (wordsToBytes ws).length = 4 * ws.length := by
  induction ws with
  | nil => simp [wordsToBytes]
  | cons w rest ih => simp [wordsToBytes, ih]; ring

theorem compress_length (hv block : List Nat) : (compress hv block).length = 8 :=
  rfl

theorem processBlocks_length (fuel : Nat) :
    ∀ (ws hv : List Nat), hv.length = 8 →
      (processBlocks fuel hv ws).length = 8 := by
  induction fuel with
  | zero =>
    intro ws hv h
    cases ws with
    | nil => simpa [processBlocks]
    | cons w rest => simpa [processBlocks]
  | succ fuel ih =>
    intro ws hv h
    cases ws with
    | nil => simpa [processBlocks]
    | cons w rest => exact ih _ _ (compress_length hv _)

theorem sha256_length (msg : List Nat) : (sha256 msg).length = 32 := by
  unfold sha256
  rw [wordsToBytes_length, processBlocks_length _ _ shaH0 (by rfl)]

theorem sha256_bytes_lt (msg : List Nat) : ∀ b ∈ sha256 msg, b < 256 := by
  unfold sha256
  exact wordsToBytes_lt _

/-- The shift-or accumulation of the first four digest bytes equals the
big-endian 32-bit reading of those bytes. -/
theorem extract4_eq (l : List Nat) (hlen : 4 ≤ l.length)
    (hlt : ∀ b ∈ l, b < 256) :
    (l.take 4).foldl (fun c b => (c <<< 8) ||| b) 0 =
      l.getD 0 0 * 16777216 + l.getD 1 0 * 65536 + l.getD 2 0 * 256 +
        l.getD 3 0 := by
  match l, hlen with
  | b0 :: b1 :: b2 :: b3 :: rest, _ =>
    have h0 : b0 < 256 := hlt b0 (by simp)
    have h1 : b1 < 256 := hlt b1 (by simp)
    have h2 : b2 < 256 := hlt b2 (by simp)
    have h3 : b3 < 256 := hlt b3 (by simp)
    simp only [List.take, List.foldl]
    rw [shiftLeft8_lor_eq 0 b0 h0, shiftLeft8_lor_eq _ b1 h1,
      shiftLeft8_lor_eq _ b2 h2, shiftLeft8_lor_eq _ b3 h3]
    simp [List.getD]
    ring

/-! ## Claims C2 and C3: TOTP derivation and verification window -/

/-- **C2** (amended): `generateTOTPCode` equals the spec's reference
derivation — SHA-256 of the secret bytes followed by the decimal counter
string, first four digest bytes read as a big-endian unsigned 32-bit integer,
reduced modulo 1,000,000 and zero-padded to 6 digits — once the counter is
computed with division truncated toward zero (Go's 64-bit division).  For all
instants at or after the Unix epoch this coincides with the claim's
floor-based counter, and the code is determined by the secret and the
30-second counter window. -/
theorem generateTOTPCode_matches_reference (secret : List Nat) (t : Int) :
    generateTOTPCode secret t = deriveCodeTrunc secret t ∧
    (0 ≤ t → generateTOTPCode secret t = deriveCodeFloor secret t) ∧
    (∀ t2 : Int, Int.tdiv t 30 = Int.tdiv t2 30 →
      generateTOTPCode secret t = generateTOTPCode secret t2) := by
  refine ⟨?_, ?_, ?_⟩
  · simp only [generateTOTPCode, deriveCodeTrunc]
    rw [extract4_eq (sha256 (secret ++ decimalBytes (Int.tdiv t 30)))
      (by rw [sha256_length]; norm_num) (sha256_bytes_lt _)]
  · intro ht
    simp only [generateTOTPCode, deriveCodeFloor]
    rw [Int.fdiv_eq_tdiv ht (by norm_num)]
    rw [extract4_eq (sha256 (secret ++ decimalBytes (Int.tdiv t 30)))
      (by rw [sha256_length]; norm_num) (sha256_bytes_lt _)]
  · intro t2 h
    simp only [generateTOTPCode]
    rw [h]

/-- **C2** (counterexample): before the epoch the code's truncated counter
division disagrees with the claim's floor-based reference.  At `t = -15`
the code uses counter `0` while the floor reference uses counter `-1`. -/
theorem generateTOTPCode_ne_floor_reference :
    generateTOTPCode [] (-15) ≠ deriveCodeFloor [] (-15) := by decide

/-- Witness for `generateTOTPCode_matches_reference` at `secret = []`,
`t = 45`, `t2 = 50` (both in counter window 1). -/
theorem generateTOTPCode_matches_reference_witness :
    (0 ≤ (45 : Int)) ∧ Int.tdiv (45 : Int) 30 = Int.tdiv (50 : Int) 30 ∧
    generateTOTPCode [] 45 = deriveCodeFloor [] 45 ∧
    generateTOTPCode [] 45 = generateTOTPCode [] 50 :=
  ⟨by decide, by decide,
    (generateTOTPCode_matches_reference [] 45).2.1 (by decide),
    (generateTOTPCode_matches_reference [] 45).2.2 50 (by decide)⟩

/-- **C3** (amended): `verifyTOTPCode` accepts exactly the submissions equal
to the code of the current instant or of the instants 30 seconds either
side; in particular codes generated at `t - 30`, `t`, `t + 30` are accepted,
and a code generated at `t - 60` or `t + 60` is rejected provided it does not
coincidentally equal one of the three in-window codes. -/
theorem verifyTOTPCode_window (secret : List Nat) (now : Int) (code : String) :
    (verifyTOTPCode secret now code = true ↔
      (code = generateTOTPCode secret (now - 30) ∨
       code = generateTOTPCode secret now ∨
       code = generateTOTPCode secret (now + 30))) ∧
    verifyTOTPCode secret now (generateTOTPCode secret (now - 30)) = true ∧
    verifyTOTPCode secret now (generateTOTPCode secret now) = true ∧
    verifyTOTPCode secret now (generateTOTPCode secret (now + 30)) = true ∧
    (generateTOTPCode secret (now - 60) ≠ generateTOTPCode secret (now - 30) →
     generateTOTPCode secret (now - 60) ≠ generateTOTPCode secret now →
     generateTOTPCode secret (now - 60) ≠ generateTOTPCode secret (now + 30) →
     verifyTOTPCode secret now (generateTOTPCode secret (now - 60)) = false) ∧
    (generateTOTPCode secret (now + 60) ≠ generateTOTPCode secret (now - 30) →
     generateTOTPCode secret (now + 60) ≠ generateTOTPCode secret now →
     generateTOTPCode secret (now + 60) ≠ generateTOTPCode secret (now + 30) →
     verifyTOTPCode secret now (generateTOTPCode secret (now + 60)) = false) := by
  have e1 : now + -30 = now - 30 := by ring
  have e2 : now + 0 * 30 = now := by ring
  have e3 : now + 1 * 30 = now + 30 := by ring
  have hv : ∀ c : String, verifyTOTPCode secret now c = true ↔
      (c = generateTOTPCode secret (now - 30) ∨
       c = generateTOTPCode secret now ∨
       c = generateTOTPCode secret (now + 30)) := by
    intro c
    simp [verifyTOTPCode, e1, e2, e3]
  refine ⟨hv code, (hv _).mpr (Or.inl rfl), (hv _).mpr (Or.inr (Or.inl rfl)),
    (hv _).mpr (Or.inr (Or.inr rfl)), ?_, ?_⟩
  · intro h1 h2 h3
    rcases Bool.eq_false_or_eq_true
        (verifyTOTPCode secret now (generateTOTPCode secret (now - 60))) with ht | hf
    · rcases (hv _).mp ht with h | h | h
      · exact absurd h h1
      · exact absurd h h2
      · exact absurd h h3
    · exact hf
  · intro h1 h2 h3
    rcases Bool.eq_false_or_eq_true
        (verifyTOTPCode secret now (generateTOTPCode secret (now + 60))) with ht | hf
    · rcases (hv _).mp ht with h | h | h
      · exact absurd h h1
      · exact absurd h h2
      · exact absurd h h3
    · exact hf

/-- **C3** (counterexample): with the secret "ixug" (bytes below) at instant
`t = 60`, the code generated at `t - 60` happens to equal the code of the
`t - 30` window, so `verifyTOTPCode` accepts a code that the claim says must
be rejected. -/
theorem verifyTOTPCode_accepts_code_from_t_minus_60 :
    verifyTOTPCode [105, 120, 117, 103] 60
      (generateTOTPCode [105, 120, 117, 103] (60 - 60)) = true := by decide

/-- Witness for `verifyTOTPCode_window` at the secret "ab" and `now = 60`,
where the out-of-window codes genuinely differ from all three accepted
codes. -/
theorem verifyTOTPCode_window_witness :
    (generateTOTPCode [97, 98] (60 - 60) ≠ generateTOTPCode [97, 98] (60 - 30) ∧
     generateTOTPCode [97, 98] (60 - 60) ≠ generateTOTPCode [97, 98] 60 ∧
     generateTOTPCode [97, 98] (60 - 60) ≠ generateTOTPCode [97, 98] (60 + 30)) ∧
    verifyTOTPCode [97, 98] 60 (generateTOTPCode [97, 98] (60 - 60)) = false :=
  ⟨⟨by decide, by decide, by decide⟩,
    (verifyTOTPCode_window [97, 98] 60 "").2.2.2.2.1
      (by decide) (by decide) (by decide)⟩

/-! ## Claim C4: backup-code consumption -/

/-- **C4** (amended): the backup-code branch scans linearly and removes
exactly the first exact match, preserving the order of the rest (the result
is `List.erase`), reporting whether a match was found; a successful
consumption shrinks the list by exactly one, and a failed one leaves it
unchanged.  A code occurring at most once in the list — as the codes of a
duplicate-free generated set do — is absent after consumption and rejected on
a second submission. -/
theorem consumeBackup_spec (codes : List String) (sub : String) :
    consumeBackup codes sub = (codes.contains sub, codes.erase sub) ∧
    (sub ∈ codes → (consumeBackup codes sub).2.length + 1 = codes.length) ∧
    (sub ∉ codes → consumeBackup codes sub = (false, codes)) ∧
    (codes.count sub ≤ 1 →
      (consumeBackup (consumeBackup codes sub).2 sub).1 = false) := by
  have main : ∀ (l : List String),
      consumeBackup l sub = (l.contains sub, l.erase sub) := by
    intro l
    induction l with
    | nil => simp [consumeBackup]
    | cons c cs ih =>
      by_cases h : sub = c
      · subst h
        simp [consumeBackup, List.erase_cons_head]
      · have hbeq : (c == sub) = false := by
          simp [beq_iff_eq]
          exact fun hc => h hc.symm
        simp [consumeBackup, h, ih, List.contains_cons, hbeq, List.erase_cons]
  refine ⟨main codes, ?_, ?_, ?_⟩
  · intro hmem
    rw [main codes]
    have := List.length_erase_of_mem hmem
    have hpos : 0 < codes.length := List.length_pos.mpr
      (List.ne_nil_of_mem hmem)
    simp only []
    omega
  · intro hmem
    rw [main codes, List.erase_of_not_mem hmem]
    have hc : codes.contains sub = false := by
      rw [show codes.contains sub = codes.elem sub from rfl, List.elem_eq_mem]
      simp [hmem]
    rw [hc]
  · intro hcount
    rw [main codes]
    simp only []
    rw [main (codes.erase sub)]
    have hnot : sub ∉ codes.erase sub := by
      intro hmem
      have h1 : 0 < (codes.erase sub).count sub := List.count_pos_iff.mpr hmem
      have h2 : (codes.erase sub).count sub = codes.count sub - 1 :=
        List.count_erase_self sub codes
      omega
    have hc : (codes.erase sub).contains sub = false := by
      rw [show (codes.erase sub).contains sub = (codes.erase sub).elem sub from rfl,
        List.elem_eq_mem]
      simp [hnot]
    exact hc

/-- **C4** (counterexample): with a duplicated backup code the consumed code
is *not* absent afterwards and a second submission is accepted again,
contradicting the claim's universal "absent and rejected on a second
submission". -/
theorem consumeBackup_duplicate_reaccepted :
    consumeBackup ["A", "A"] "A" = (true, ["A"]) ∧
    "A" ∈ (consumeBackup ["A", "A"] "A").2 ∧
    (consumeBackup (consumeBackup ["A", "A"] "A").2 "A").1 = true := by
  refine ⟨?_, ?_, ?_⟩ <;> decide

/-- Witness for `consumeBackup_spec`: consuming "A" from the duplicate-free
list ["A", "B"] shrinks it by one and a second submission is rejected;
consuming the absent "C" leaves the list unchanged. -/
theorem consumeBackup_spec_witness :
    ("A" ∈ (["A", "B"] : List String)) ∧
    (("A" : String) ∉ (["B"] : List String)) ∧
    ((["A", "B"] : List String).count "A" ≤ 1) ∧
    (consumeBackup ["A", "B"] "A").2.length + 1 =
      (["A", "B"] : List String).length ∧
    consumeBackup ["B"] "A" = (false, ["B"]) ∧
    (consumeBackup (consumeBackup ["A", "B"] "A").2 "A").1 = false :=
  ⟨by decide, by decide, by decide,
    (consumeBackup_spec ["A", "B"] "A").2.1 (by decide),
    (consumeBackup_spec ["B"] "A").2.2.1 (by decide),
    (consumeBackup_spec ["A", "B"] "A").2.2.2 (by decide)⟩

/-! ## Claim C7: atomicity of the 2FA enable flow -/

/-- **C7**: for a user without 2FA, `enable2FA` with a freshly generated
secret and 10 backup codes either commits everything (confirmation code in
the TOTP window of the new secret: secret and the 10 generated codes are
persisted, 2FA turns on) or discards everything (otherwise: secret and
backup codes are reset to empty and 2FA stays off). -/
theorem enable2FA_atomic (now : Int) (user : User2FA) (secret : List Nat)
    (gen : Nat → String) (confirmation : String)
    (h2fa : user.is2FAEnabled = false) :
    (verifyTOTPCode secret now confirmation = false →
      (enable2FA now user secret (generateBackupCodesList gen backupCodesCount)
          confirmation).totpSecret = [] ∧
      (enable2FA now user secret (generateBackupCodesList gen backupCodesCount)
          confirmation).backupCodes = [] ∧
      (enable2FA now user secret (generateBackupCodesList gen backupCodesCount)
          confirmation).is2FAEnabled = false) ∧
    (verifyTOTPCode secret now confirmation = true →
      (enable2FA now user secret (generateBackupCodesList gen backupCodesCount)
          confirmation).totpSecret = secret ∧
      (enable2FA now user secret (generateBackupCodesList gen backupCodesCount)
          confirmation).backupCodes = generateBackupCodesList gen backupCodesCount ∧
      (enable2FA now user secret (generateBackupCodesList gen backupCodesCount)
          confirmation).backupCodes.length = 10 ∧
      (enable2FA now user secret (generateBackupCodesList gen backupCodesCount)
          confirmation).is2FAEnabled = true) := by
  constructor
  · intro hv
    simp [enable2FA, h2fa, hv]
  · intro hv
    simp [enable2FA, h2fa, hv, generateBackupCodesList, backupCodesCount]

/-- Concrete user for the `enable2FA_atomic` witness. -/
def witness2FAUser : User2FA :=
  { username := "bob", passwordHash := "H", totpSecret := [],
    backupCodes := [], is2FAEnabled := false, createdAt := 1, lastLogin := 0 }

/-- Concrete generated backup codes for the `enable2FA_atomic` witness. -/
def witness2FACodes : List String :=
  generateBackupCodesList (fun _ => "C") backupCodesCount

/-- Witness for `enable2FA_atomic`: a concrete user, secret and generator,
exercising both the discard branch (empty confirmation) and the commit branch
(confirmation generated from the new secret). -/
theorem enable2FA_atomic_witness :
    (witness2FAUser.is2FAEnabled = false) ∧
    (verifyTOTPCode [97] 0 "" = false) ∧
    (verifyTOTPCode [97] 0 (generateTOTPCode [97] 0) = true) ∧
    ((enable2FA 0 witness2FAUser [97] witness2FACodes "").totpSecret = [] ∧
     (enable2FA 0 witness2FAUser [97] witness2FACodes "").backupCodes = [] ∧
     (enable2FA 0 witness2FAUser [97] witness2FACodes
        "").is2FAEnabled = false) ∧
    ((enable2FA 0 witness2FAUser [97] witness2FACodes
        (generateTOTPCode [97] 0)).totpSecret = [97] ∧
     (enable2FA 0 witness2FAUser [97] witness2FACodes
        (generateTOTPCode [97] 0)).backupCodes = witness2FACodes ∧
     (enable2FA 0 witness2FAUser [97] witness2FACodes
        (generateTOTPCode [97] 0)).is2FAEnabled = true) :=
  ⟨rfl, by decide, by decide,
    (enable2FA_atomic 0 witness2FAUser [97] (fun _ => "C") "" rfl).1 (by decide),
    (by
      have h := (enable2FA_atomic 0 witness2FAUser [97] (fun _ => "C")
        (generateTOTPCode [97] 0) rfl).2 (by decide)
      exact ⟨h.1, h.2.1, h.2.2.2⟩)⟩

/-! ## Lockout step lemmas -/

theorem saveUser_get_same (s : Store) (u : User) (n : String)
    (h : u.username = n) : SaveUser s u n = some u := by
  simp [SaveUser, h]

theorem saveUser_get_other (s : Store) (u : User) (n : String)
    (h : n ≠ u.username) : SaveUser s u n = s n := by
  simp [SaveUser, h]

theorem auth_wrong_step (verify : String → String → Bool) (now : Nat)
    (s : Store) (uname pw : String) (u : User)
    (htrim : trimSpace uname = uname) (hget : s uname = some u)
    (hnb : u.isBlocked = false) (hw : verify pw u.hashedPassword = false)
    (hlt : u.failedAttempts + 1 < maxAttempts) :
    AuthenticateUser verify now s uname pw =
      (.invalidCredentials,
        SaveUser s { u with failedAttempts := u.failedAttempts + 1 }) := by
  have hge : ¬ (u.failedAttempts + 1 ≥ maxAttempts) := Nat.not_le.mpr hlt
  unfold AuthenticateUser GetUser
  rw [htrim]
  simp [hget, hnb, hw, hge]

theorem auth_wrong_block_step (verify : String → String → Bool) (now : Nat)
    (s : Store) (uname pw : String) (u : User)
    (htrim : trimSpace uname = uname) (hget : s uname = some u)
    (hnb : u.isBlocked = false) (hw : verify pw u.hashedPassword = false)
    (hge : u.failedAttempts + 1 ≥ maxAttempts) :
    AuthenticateUser verify now s uname pw =
      (.userBlocked,
        SaveUser s { u with failedAttempts := u.failedAttempts + 1,
                            isBlocked := true, blockedAt := now }) := by
  unfold AuthenticateUser GetUser
  rw [htrim]
  simp [hget, hnb, hw, hge]

/-! ## Claim C1: exactly three wrong attempts block the account -/

/-- **C1**: starting from a registered, non-blocked account with a zero
failure counter, three consecutive wrong-password attempts produce the result
sequence [InvalidCredentials, InvalidCredentials, UserBlocked] and leave the
account blocked with `failedAttempts = 3` and `blockedAt` stamped by the third
attempt; after only two wrong attempts the account is not blocked; and in
general the attempt whose increment makes the counter reach `maxAttempts`
itself returns UserBlocked and stamps `blockedAt`. -/
theorem three_wrong_attempts_block (verify : String → String → Bool)
    (s : Store) (uname pw1 pw2 pw3 : String) (now1 now2 now3 : Nat) (u : User)
    (htrim : trimSpace uname = uname) (hkey : u.username = uname)
    (hget : s uname = some u) (hnb : u.isBlocked = false)
    (hfa : u.failedAttempts = 0)
    (hw1 : verify pw1 u.hashedPassword = false)
    (hw2 : verify pw2 u.hashedPassword = false)
    (hw3 : verify pw3 u.hashedPassword = false) :
    (runAuths verify s uname [(now1, pw1), (now2, pw2), (now3, pw3)]).1 =
      [.invalidCredentials, .invalidCredentials, .userBlocked] ∧
    (runAuths verify s uname [(now1, pw1), (now2, pw2), (now3, pw3)]).2 uname =
      some { u with failedAttempts := 3, isBlocked := true,
                    blockedAt := now3 } ∧
    (runAuths verify s uname [(now1, pw1), (now2, pw2)]).1 =
      [.invalidCredentials, .invalidCredentials] ∧
    (runAuths verify s uname [(now1, pw1), (now2, pw2)]).2 uname =
      some { u with failedAttempts := 2 } ∧
    ({ u with failedAttempts := 2 } : User).isBlocked = false ∧
    (∀ (s' : Store) (u' : User) (pw : String) (now : Nat),
      s' uname = some u' → u'.username = uname → u'.isBlocked = false →
      verify pw u'.hashedPassword = false →
      u'.failedAttempts + 1 = maxAttempts →
      AuthenticateUser verify now s' uname pw =
        (.userBlocked,
          SaveUser s' { u' with failedAttempts := u'.failedAttempts + 1,
                                isBlocked := true, blockedAt := now })) := by
  refine ⟨?_, ?_, ?_, ?_, hnb, ?_⟩
  · simp [runAuths, AuthenticateUser, GetUser, SaveUser, htrim, hget, hkey,
      hnb, hfa, hw1, hw2, hw3, maxAttempts]
  · simp [runAuths, AuthenticateUser, GetUser, SaveUser, htrim, hget, hkey,
      hnb, hfa, hw1, hw2, hw3, maxAttempts]
  · simp [runAuths, AuthenticateUser, GetUser, SaveUser, htrim, hget, hkey,
      hnb, hfa, hw1, hw2, maxAttempts]
  · simp [runAuths, AuthenticateUser, GetUser, SaveUser, htrim, hget, hkey,
      hnb, hfa, hw1, hw2, maxAttempts]
  · intro s' u' pw now hget' hkey' hnb' hw' hreach
    exact auth_wrong_block_step verify now s' uname pw u' htrim hget' hnb'
      hw' (by omega)

/-! ## Claim C5: blocked accounts short-circuit -/

/-- **C5**: for a blocked account `AuthenticateUser` returns UserBlocked
before any password comparison (the `verify` callback is arbitrary and
unused) and returns the store completely unchanged, so no field of any user —
in particular `failedAttempts` — is modified. -/
theorem authenticate_blocked_returns_blocked (verify : String → String → Bool)
    (now : Nat) (s : Store) (uname pw : String) (u : User)
    (htrim : trimSpace uname = uname) (hget : s uname = some u)
    (hb : u.isBlocked = true) :
    AuthenticateUser verify now s uname pw = (.userBlocked, s) := by
  unfold AuthenticateUser GetUser
  rw [htrim]
  simp [hget, hb]

/-- Blocked user and store for the claim-C5 witness; the password checker
accepts everything, showing the block is independent of correctness. -/
def witnessBlockedUser : User :=
  { username := "carol", hashedPassword := "H", failedAttempts := 3,
    isBlocked := true, createdAt := 5, lastLoginAt := 0, blockedAt := 9 }

def witnessBlockedStore : Store := SaveUser emptyStore witnessBlockedUser

/-- Witness for `authenticate_blocked_returns_blocked` with an
always-accepting password checker. -/
theorem authenticate_blocked_returns_blocked_witness :
    (trimSpace "carol" = "carol") ∧
    (witnessBlockedStore "carol" = some witnessBlockedUser) ∧
    (witnessBlockedUser.isBlocked = true) ∧
    AuthenticateUser (fun _ _ => true) 11 witnessBlockedStore "carol" "pw" =
      (.userBlocked, witnessBlockedStore) :=
  ⟨by decide, rfl, rfl,
    authenticate_blocked_returns_blocked (fun _ _ => true) 11
      witnessBlockedStore "carol" "pw" witnessBlockedUser (by decide) rfl rfl⟩

/-! ## Claim C6: password change is the only unblock path -/

/-- **C6**: for an existing user and a policy-compliant new password,
`ChangePassword` succeeds and unconditionally stores the user with the new
hash, `failedAttempts = 0`, `isBlocked = false` and `blockedAt` cleared,
whatever the previous counter and blocked state; moreover no other operation
clears a block: `AuthenticateUser` leaves every blocked user's record exactly
as it was (in any store whose records are keyed by their own username), and a
successful `RegisterUser` leaves every existing record exactly as it was. -/
theorem changePassword_unblocks (hash : String → String) (s : Store)
    (uname npw : String) (u : User)
    (htrim : trimSpace uname = uname) (hkey : u.username = uname)
    (hget : s uname = some u)
    (hpol : (IsPasswordSecure npw).1 = true) :
    ChangePassword hash s uname npw =
      .ok (SaveUser s { u with hashedPassword := hash npw,
                               failedAttempts := 0, isBlocked := false,
                               blockedAt := 0 }) ∧
    (SaveUser s { u with hashedPassword := hash npw, failedAttempts := 0,
                         isBlocked := false, blockedAt := 0 }) uname =
      some { u with hashedPassword := hash npw, failedAttempts := 0,
                    isBlocked := false, blockedAt := 0 } ∧
    (∀ (verify : String → String → Bool) (now : Nat) (s' : Store)
        (un pw n : String) (w : User),
      (∀ m v, s' m = some v → v.username = m) →
      s' n = some w → w.isBlocked = true →
      (AuthenticateUser verify now s' un pw).2 n = some w) ∧
    (∀ (hash' : String → String) (now : Nat) (s' s'' : Store)
        (un pw n : String) (w : User),
      s' n = some w → RegisterUser hash' now s' un pw = .ok s'' →
      s'' n = some w) := by
  refine ⟨?_, ?_, ?_, ?_⟩
  · unfold ChangePassword GetUser
    rw [htrim]
    simp [hget, hpol]
  · exact saveUser_get_same _ _ _ hkey
  · intro verify now s' un pw n w hcoh hw hblocked
    simp only [AuthenticateUser, GetUser]
    cases hlook : s' (trimSpace un) with
    | none => simpa using hw
    | some v =>
      have hvn : v.username = trimSpace un := hcoh _ _ hlook
      by_cases heq : trimSpace un = n
      · have hvw : v = w := by
          rw [heq] at hlook
          rw [hlook] at hw
          exact Option.some_injective _ hw
        subst hvw
        simp [hblocked]
        rw [← heq]
        exact hlook
      · have hne : n ≠ v.username := by
          rw [hvn]
          exact fun hc => heq hc.symm
        by_cases hb : v.isBlocked
        · simpa [hb] using hw
        · by_cases hvf : verify pw v.hashedPassword
          · simp [hb, hvf, SaveUser, hne, hw]
          · by_cases hth : v.failedAttempts + 1 ≥ maxAttempts
            · simp [hb, hvf, hth, SaveUser, hne, hw]
            · simp [hb, hvf, hth, SaveUser, hne, hw]
  · intro hash' now s' s'' un pw n w hwn hok
    unfold RegisterUser GetUser at hok
    by_cases h1 : trimSpace un = ""
    · simp [h1] at hok
    · by_cases h2 : (s' (trimSpace un)).isSome
      · simp [h1, h2] at hok
      · by_cases h3 : (IsPasswordSecure pw).1 = false
        · simp [h1, h2, h3] at hok
        · simp [h1, h2, h3] at hok
          have hne : n ≠ trimSpace un := by
            intro hc
            rw [← hc] at h2
            exact h2 (by rw [hwn]; rfl)
          rw [← hok]
          simp [SaveUser, hne, hwn]

/-! ## Shared concrete witnesses for the lockout claims -/

def witnessHash : String → String := fun _ => "H"

def witnessVerify : String → String → Bool := fun _ _ => false

def witnessAlice : User :=
  { username := "alice", hashedPassword := "H", failedAttempts := 0,
    isBlocked := false, createdAt := 5, lastLoginAt := 0, blockedAt := 0 }

def witnessStore1 : Store := SaveUser emptyStore witnessAlice

/-- Witness for `three_wrong_attempts_block` on a freshly registered user. -/
theorem three_wrong_attempts_block_witness :
    (trimSpace "alice" = "alice") ∧ (witnessAlice.username = "alice") ∧
    (witnessStore1 "alice" = some witnessAlice) ∧
    (witnessAlice.isBlocked = false) ∧ (witnessAlice.failedAttempts = 0) ∧
    (witnessVerify "x" witnessAlice.hashedPassword = false) ∧
    (runAuths witnessVerify witnessStore1 "alice"
        [(7, "x"), (8, "x"), (9, "x")]).1 =
      [.invalidCredentials, .invalidCredentials, .userBlocked] :=
  ⟨by decide, rfl, rfl, rfl, rfl, rfl,
    (three_wrong_attempts_block witnessVerify witnessStore1 "alice" "x" "x"
      "x" 7 8 9 witnessAlice (by decide) rfl rfl rfl rfl rfl rfl rfl).1⟩

/-- Witness for `changePassword_unblocks` on a blocked user and a
policy-compliant replacement password. -/
theorem changePassword_unblocks_witness :
    (trimSpace "carol" = "carol") ∧
    (witnessBlockedUser.username = "carol") ∧
    (witnessBlockedStore "carol" = some witnessBlockedUser) ∧
    ((IsPasswordSecure "ABcdef12!?zz").1 = true) ∧
    ChangePassword (fun _ => "H2") witnessBlockedStore "carol" "ABcdef12!?zz" =
      .ok (SaveUser witnessBlockedStore
        { witnessBlockedUser with hashedPassword := "H2",
                                  failedAttempts := 0, isBlocked := false,
                                  blockedAt := 0 }) :=
  ⟨by decide, rfl, rfl, by decide,
    (changePassword_unblocks (fun _ => "H2") witnessBlockedStore "carol"
      "ABcdef12!?zz" witnessBlockedUser (by decide) rfl rfl (by decide)).1⟩

/-! ## Claims C8 and C10: invariants of all reachable stores -/

/-- Stores reachable from the empty store through registration,
authentication and password change, with arbitrary hashers and password
checkers; the wall-clock instants passed to registration and authentication
are nonzero, as `time.Now()` never is the zero sentinel. -/
inductive Reachable : Store → Prop
  | empty : Reachable emptyStore
  | register (hash : String → String) (now : Nat) (username password : String)
      {s s' : Store} :
      Reachable s → now ≠ 0 →
      RegisterUser hash now s username password = .ok s' → Reachable s'
  | authenticate (verify : String → String → Bool) (now : Nat)
      (username password : String) {s : Store} :
      Reachable s → now ≠ 0 →
      Reachable (AuthenticateUser verify now s username password).2
  | changePassword (hash : String → String) (username password : String)
      {s s' : Store} :
      Reachable s →
      ChangePassword hash s username password = .ok s' → Reachable s'

/-- The per-user lockout invariant: blocked exactly at the threshold with a
stamped block time, otherwise strictly below the threshold. -/
def GoodUser (u : User) : Prop :=
  (u.isBlocked = true → u.failedAttempts = maxAttempts ∧ u.blockedAt ≠ 0) ∧
  (u.isBlocked = false → u.failedAttempts < maxAttempts)

def GoodStore (s : Store) : Prop := ∀ n u, s n = some u → GoodUser u

theorem goodStore_save (s : Store) (x : User) (hg : GoodStore s)
    (hx : GoodUser x) : GoodStore (SaveUser s x) := by
  intro n u h
  simp only [SaveUser] at h
  by_cases hn : n = x.username
  · rw [if_pos hn] at h
    cases h
    exact hx
  · rw [if_neg hn] at h
    exact hg _ _ h

theorem register_preserves_good (hash : String → String) (now : Nat)
    (s s' : Store) (un pw : String) (hg : GoodStore s)
    (hok : RegisterUser hash now s un pw = .ok s') : GoodStore s' := by
  unfold RegisterUser GetUser at hok
  by_cases h1 : trimSpace un = ""
  · simp [h1] at hok
  · by_cases h2 : (s (trimSpace un)).isSome
    · simp [h1, h2] at hok
    · by_cases h3 : (IsPasswordSecure pw).1 = false
      · simp [h1, h2, h3] at hok
      · simp [h1, h2, h3] at hok
        rw [← hok]
        apply goodStore_save _ _ hg
        constructor
        · intro hbl
          cases hbl
        · intro _
          show (0 : Nat) < maxAttempts
          decide

theorem authenticate_preserves_good (verify : String → String → Bool)
    (now : Nat) (s : Store) (un pw : String) (hnow : now ≠ 0)
    (hg : GoodStore s) :
    GoodStore (AuthenticateUser verify now s un pw).2 := by
  simp only [AuthenticateUser, GetUser]
  cases hlook : s (trimSpace un) with
  | none => simpa using hg
  | some v =>
    have hv := hg _ _ hlook
    by_cases hb : v.isBlocked
    · simpa [hb] using hg
    · have hbf : v.isBlocked = false := by simpa using hb
      have hlt : v.failedAttempts < maxAttempts := hv.2 hbf
      by_cases hvf : verify pw v.hashedPassword
      · simp [hbf, hvf]
        apply goodStore_save _ _ hg
        constructor
        · intro hbl
          simp at hbl
        · intro _
          show (0 : Nat) < maxAttempts
          decide
      · by_cases hth : v.failedAttempts + 1 ≥ maxAttempts
        · simp [hbf, hvf, hth]
          apply goodStore_save _ _ hg
          constructor
          · intro _
            refine ⟨?_, hnow⟩
            show v.failedAttempts + 1 = maxAttempts
            omega
          · intro hfalse
            cases hfalse
        · simp [hbf, hvf, hth]
          apply goodStore_save _ _ hg
          constructor
          · intro hbl
            simp at hbl
          · intro _
            show v.failedAttempts + 1 < maxAttempts
            omega

theorem changePassword_preserves_good (hash : String → String) (s s' : Store)
    (un pw : String) (hg : GoodStore s)
    (hok : ChangePassword hash s un pw = .ok s') : GoodStore s' := by
  simp only [ChangePassword, GetUser] at hok
  cases hlook : s (trimSpace un) with
  | none => rw [hlook] at hok; cases hok
  | some v =>
    rw [hlook] at hok
    by_cases h3 : (IsPasswordSecure pw).1 = false
    · simp [h3] at hok
    · simp [h3] at hok
      rw [← hok]
      apply goodStore_save _ _ hg
      constructor
      · intro hbl
        cases hbl
      · intro _
        show (0 : Nat) < maxAttempts
        decide

theorem reachable_good (s : Store) (h : Reachable s) : GoodStore s := by
  induction h with
  | empty =>
    intro n u hu
    cases hu
  | register hash now un pw hr hnow hok ih =>
    exact register_preserves_good hash now _ _ un pw ih hok
  | authenticate verify now un pw hr hnow ih =>
    exact authenticate_preserves_good verify now _ un pw hnow ih
  | changePassword hash un pw hr hok ih =>
    exact changePassword_preserves_good hash _ _ un pw ih hok

/-- **C8**: in every store reachable from the empty store through
registration, authentication and password change, a blocked user's failure
counter has reached `maxAttempts` and its block timestamp is set (nonzero). -/
theorem blocked_users_at_threshold (s : Store) (h : Reachable s) :
    ∀ (n : String) (u : User), s n = some u → u.isBlocked = true →
      u.failedAttempts ≥ maxAttempts ∧ u.blockedAt ≠ 0 := by
  intro n u hu hb
  have hg := reachable_good s h n u hu
  have := hg.1 hb
  omega

/-- **C10**: in every store reachable from the empty store through
registration, authentication and password change, no user's failure counter
exceeds `maxAttempts`. -/
theorem failedAttempts_le_threshold (s : Store) (h : Reachable s) :
    ∀ (n : String) (u : User), s n = some u →
      u.failedAttempts ≤ maxAttempts := by
  intro n u hu
  have hg := reachable_good s h n u hu
  rcases Bool.eq_false_or_eq_true u.isBlocked with hb | hb
  · have := hg.1 hb
    omega
  · have := hg.2 hb
    omega

/-! ## Concrete reachable store for the invariant witnesses -/

theorem witnessStore1_register :
    RegisterUser witnessHash 5 emptyStore "alice" "ABcdef12!?zz" =
      .ok witnessStore1 := by
  rfl

def witnessStore2 : Store :=
  (AuthenticateUser witnessVerify 7 witnessStore1 "alice" "x").2

def witnessStore3 : Store :=
  (AuthenticateUser witnessVerify 8 witnessStore2 "alice" "x").2

def witnessStore4 : Store :=
  (AuthenticateUser witnessVerify 9 witnessStore3 "alice" "x").2

theorem witnessStore4_reachable : Reachable witnessStore4 :=
  Reachable.authenticate witnessVerify 9 "alice" "x"
    (Reachable.authenticate witnessVerify 8 "alice" "x"
      (Reachable.authenticate witnessVerify 7 "alice" "x"
        (Reachable.register witnessHash 5 "alice" "ABcdef12!?zz"
          Reachable.empty (by decide) witnessStore1_register)
        (by decide))
      (by decide))
    (by decide)

/-- The blocked record of "alice" after the three wrong attempts. -/
def witnessBlockedAlice : User :=
  { username := "alice", hashedPassword := "H", failedAttempts := 3,
    isBlocked := true, createdAt := 5, lastLoginAt := 0, blockedAt := 9 }

/-- Witness for `blocked_users_at_threshold` on the reachable store in which
"alice" was registered and then blocked by three wrong attempts. -/
theorem blocked_users_at_threshold_witness :
    (witnessStore4 "alice" = some witnessBlockedAlice) ∧
    (witnessBlockedAlice.isBlocked = true) ∧
    (witnessBlockedAlice.failedAttempts ≥ maxAttempts ∧
      witnessBlockedAlice.blockedAt ≠ 0) :=
  ⟨by decide, rfl,
    blocked_users_at_threshold witnessStore4 witnessStore4_reachable "alice"
      witnessBlockedAlice (by decide) rfl⟩

/-- Witness for `failedAttempts_le_threshold` on the same reachable store. -/
theorem failedAttempts_le_threshold_witness :
    (witnessStore4 "alice" = some witnessBlockedAlice) ∧
    (witnessBlockedAlice.failedAttempts ≤ maxAttempts) :=
  ⟨by decide,
    failedAttempts_le_threshold witnessStore4 witnessStore4_reachable "alice"
      witnessBlockedAlice (by decide)⟩

/-! ## Claim C9: the validator collects every violation -/

/-- First-match predicates mirroring the branches of `classifyStep`. -/
def qU (c : Char) : Bool := containsRune uppercaseLetters c

def qL (c : Char) : Bool :=
  !containsRune uppercaseLetters c && containsRune lowercaseLetters c

def qD (c : Char) : Bool :=
  !containsRune uppercaseLetters c && !containsRune lowercaseLetters c &&
    containsRune digitChars c

def qS (c : Char) : Bool :=
  !containsRune uppercaseLetters c && !containsRune lowercaseLetters c &&
    !containsRune digitChars c && containsRune specialChars c

theorem containsRune_eq_true_iff (s : String) (c : Char) :
    containsRune s c = true ↔ c ∈ s.data := by
  rw [containsRune, show s.data.contains c = s.data.elem c from rfl,
    List.elem_eq_mem]
  simp

/-- The four character classes are pairwise disjoint. -/
theorem charClasses_disjoint :
    (∀ c ∈ lowercaseLetters.data, c ∉ uppercaseLetters.data) ∧
    (∀ c ∈ digitChars.data,
      c ∉ uppercaseLetters.data ∧ c ∉ lowercaseLetters.data) ∧
    (∀ c ∈ specialChars.data,
      c ∉ uppercaseLetters.data ∧ c ∉ lowercaseLetters.data ∧
        c ∉ digitChars.data) := by decide

theorem containsRune_false_of_not_mem (s : String) (c : Char)
    (h : c ∉ s.data) : containsRune s c = false := by
  rcases Bool.eq_false_or_eq_true (containsRune s c) with ht | hf
  · exact absurd ((containsRune_eq_true_iff s c).mp ht) h
  · exact hf

theorem foldl_classifyStep (l : List Char) :
    ∀ k : Nat × Nat × Nat × Nat,
      l.foldl classifyStep k =
        (k.1 + l.countP qU, k.2.1 + l.countP qL,
         k.2.2.1 + l.countP qD, k.2.2.2 + l.countP qS) := by
  induction l with
  | nil => intro k; simp
  | cons c cs ih =>
    intro k
    rw [List.foldl_cons, ih]
    by_cases hU : containsRune uppercaseLetters c
    · simp [classifyStep, qU, qL, qD, qS, hU, List.countP_cons]
      omega
    · by_cases hL : containsRune lowercaseLetters c
      · simp [classifyStep, qU, qL, qD, qS, hU, hL, List.countP_cons]
        omega
      · by_cases hD : containsRune digitChars c
        · simp [classifyStep, qU, qL, qD, qS, hU, hL, hD, List.countP_cons]
          omega
        · by_cases hS : containsRune specialChars c
          · simp [classifyStep, qU, qL, qD, qS, hU, hL, hD, hS,
              List.countP_cons]
            omega
          · simp [classifyStep, qU, qL, qD, qS, hU, hL, hD, hS,
              List.countP_cons]

theorem countP_qL_eq (l : List Char) :
    l.countP qL = l.countP (fun c => containsRune lowercaseLetters c) := by
  apply List.countP_congr
  intro x _
  unfold qL
  constructor
  · intro h
    exact (Bool.and_eq_true _ _ |>.mp h).2
  · intro h
    have hnu : containsRune uppercaseLetters x = false :=
      containsRune_false_of_not_mem _ _
        (charClasses_disjoint.1 x ((containsRune_eq_true_iff _ _).mp h))
    simp [hnu, h]

theorem countP_qD_eq (l : List Char) :
    l.countP qD = l.countP (fun c => containsRune digitChars c) := by
  apply List.countP_congr
  intro x _
  unfold qD
  constructor
  · intro h
    exact (Bool.and_eq_true _ _ |>.mp h).2
  · intro h
    have hmem := (containsRune_eq_true_iff _ _).mp h
    have hnu : containsRune uppercaseLetters x = false :=
      containsRune_false_of_not_mem _ _ (charClasses_disjoint.2.1 x hmem).1
    have hnl : containsRune lowercaseLetters x = false :=
      containsRune_false_of_not_mem _ _ (charClasses_disjoint.2.1 x hmem).2
    simp [hnu, hnl, h]

theorem countP_qS_eq (l : List Char) :
    l.countP qS = l.countP (fun c => containsRune specialChars c) := by
  apply List.countP_congr
  intro x _
  unfold qS
  constructor
  · intro h
    exact (Bool.and_eq_true _ _ |>.mp h).2
  · intro h
    have hmem := (containsRune_eq_true_iff _ _).mp h
    have hnu : containsRune uppercaseLetters x = false :=
      containsRune_false_of_not_mem _ _ (charClasses_disjoint.2.2 x hmem).1
    have hnl : containsRune lowercaseLetters x = false :=
      containsRune_false_of_not_mem _ _ (charClasses_disjoint.2.2 x hmem).2.1
    have hnd : containsRune digitChars x = false :=
      containsRune_false_of_not_mem _ _ (charClasses_disjoint.2.2 x hmem).2.2
    simp [hnu, hnl, hnd, h]

/-- The single-pass first-match counting loop computes exactly the
independent per-class counts, because the classes are disjoint. -/
theorem classifyCounts_eq (password : String) :
    classifyCounts password =
      (countClass password uppercaseLetters,
       countClass password lowercaseLetters,
       countClass password digitChars,
       countClass password specialChars) := by
  unfold classifyCounts countClass
  rw [foldl_classifyStep]
  simp only [Nat.zero_add]
  rw [countP_qL_eq, countP_qD_eq, countP_qS_eq]
  rfl

/-- **C9**: `ValidatePassword` reports the complete ordered list of every
violated requirement — length first, then the uppercase, lowercase, digit and
special-character minimums, each present exactly when violated — and returns
ok exactly when that list is empty. -/
theorem validate_collects_all_violations (password : String)
    (rules : PasswordRules) :
    (ValidatePassword password rules).2 =
      (if password.utf8ByteSize < rules.Length then
        [lengthViolation rules.Length] else [])
      ++ (if rules.RequireUppercase ∧
            countClass password uppercaseLetters < rules.MinUppercase then
          [uppercaseViolation rules.MinUppercase] else [])
      ++ (if rules.RequireLowercase ∧
            countClass password lowercaseLetters < rules.MinLowercase then
          [lowercaseViolation rules.MinLowercase] else [])
      ++ (if rules.RequireDigits ∧
            countClass password digitChars < rules.MinDigits then
          [digitsViolation rules.MinDigits] else [])
      ++ (if rules.RequireSpecial ∧
            countClass password specialChars < rules.MinSpecial then
          [specialViolation rules.MinSpecial] else []) ∧
    ((ValidatePassword password rules).1 = true ↔
      (ValidatePassword password rules).2 = []) := by
  constructor
  · simp only [ValidatePassword, classifyCounts_eq]
  · simp only [ValidatePassword]
    exact List.isEmpty_iff
